import Mathlib

/-!
Verification of the Meo Mic real-time audio transport and playback core.

Shallow embedding of:
  - `pc-app/meomic/audio_receiver.py` (`UdpAudioReceiver._handle_packet`,
    `_send_ack`, `_handle_disconnect`, `get_stats`), and
  - `pc-app/meomic/audio_output.py` (`AudioOutput.write`, `_callback`,
    `set_volume`).

Datagrams are lists of bytes (`List ℕ`); addresses are `(ip, port)` pairs
modelled as `ℕ × ℕ` (the code compares the whole tuple and reports `addr[0]`
in the connect event); wall-clock time is passed in as a rational parameter
`now` (the code calls `time.time()`); side effects (callbacks fired,
ACK datagrams sent) are returned as an explicit event list.
-/

namespace MeoMic

/-- Wire magic bytes `b'WM'` (`UdpAudioReceiver.MAGIC`). -/
def MAGIC : List ℕ := [87, 77]

/-- `2^32`, the modulus of the sequence-number space (`& 0xFFFFFFFF`). -/
def M32 : ℕ := 4294967296

/-- Connection state of `UdpAudioReceiver` (the fields mutated by
`_handle_packet`).  `last_sequence` is signed: `-1` means unset. -/
structure RecvState where
  client_address : Option (ℕ × ℕ)
  last_packet_time : ℚ
  last_ack_time : ℚ
  packets_received : ℕ
  last_sequence : Int
  packets_lost : ℕ
  ack_sequence : ℕ
deriving DecidableEq, Repr

/-- Observable side effects of packet handling: the `on_client_connected`,
`on_client_disconnected`, `on_audio_data` callbacks and outgoing ACK
datagrams (`socket.sendto` in `_send_ack`). -/
inductive RecvEvent where
  | clientConnected (ip : ℕ)
  | clientDisconnected
  | audioData (payload : List ℕ)
  | ackSent (addr : ℕ × ℕ) (seq : ℕ)
deriving DecidableEq, Repr

/-- `_send_ack`: emits an ACK carrying the current outgoing counter, then
increments the counter mod 2^32. -/
def sendAck (st : RecvState) (addr : ℕ × ℕ) : RecvState × RecvEvent :=
  ({ st with ack_sequence := (st.ack_sequence + 1) % M32 },
   RecvEvent.ackSent addr st.ack_sequence)

/-- `_handle_disconnect`: if a connection exists, clear `client_address` and
fire `on_client_disconnected` (counters are not reset here). -/
def handleDisconnect (st : RecvState) : RecvState × List RecvEvent :=
  if st.client_address.isSome then
    ({ st with client_address := none }, [RecvEvent.clientDisconnected])
  else (st, [])

/-- Connection tracking step of `_handle_packet` (lines 121-128): a packet
from a different address resets the connection and fires
`on_client_connected` with the sender's ip. -/
def connTrack (st : RecvState) (addr : ℕ × ℕ) : RecvState × List RecvEvent :=
  if st.client_address ≠ some addr then
    ({ st with client_address := some addr, last_sequence := -1,
               packets_lost := 0, packets_received := 0 },
     [RecvEvent.clientConnected addr.1])
  else (st, [])

/-- Loss-tracking step of `_handle_packet` (lines 133-139): when
`last_sequence >= 0`, compare against `expected = (last_sequence+1) mod 2^32`
and add the gap to `packets_lost` when it is below the sanity threshold 1000.
Python's `& 0xFFFFFFFF` on an `int` is `% 2^32` with a non-negative result,
which is `Int.emod` here. -/
def lossTrack (st : RecvState) (sequence : ℕ) : RecvState :=
  if 0 ≤ st.last_sequence then
    if (sequence : Int) ≠ (st.last_sequence + 1) % (M32 : Int) then
      if ((sequence : Int) - (st.last_sequence + 1) % (M32 : Int)) % (M32 : Int)
          < 1000 then
        { st with packets_lost := st.packets_lost +
            (((sequence : Int) - (st.last_sequence + 1) % (M32 : Int)) %
              (M32 : Int)).toNat }
      else st
    else st
  else st

/-- Big-endian `u32` at offset 4 (`struct.unpack('>I', data[4:8])`). -/
def parseSeqBE (data : List ℕ) : ℕ :=
  data.getD 4 0 * 16777216 + data.getD 5 0 * 65536 +
    data.getD 6 0 * 256 + data.getD 7 0

/-- The state updates of `_handle_packet` common to every valid packet
(lines 121-140): connection tracking, `last_packet_time`,
`packets_received`, loss tracking, then `last_sequence := sequence`
unconditionally. -/
def commonUpdate (st : RecvState) (addr : ℕ × ℕ) (now : ℚ) (sequence : ℕ) :
    RecvState :=
  { lossTrack
      { (connTrack st addr).1 with
        last_packet_time := now,
        packets_received := (connTrack st addr).1.packets_received + 1 }
      sequence
    with last_sequence := (sequence : Int) }

/-- Per-type dispatch of `_handle_packet` (lines 143-159). AUDIO delivers a
non-empty payload and sends an ACK when more than 500 ms passed since the
last one; KEEPALIVE always ACKs; DISCONNECT clears the connection.  Any
other type (including ACK = 3) has no branch. -/
def dispatch (st : RecvState) (packet_type : ℕ) (data : List ℕ)
    (addr : ℕ × ℕ) (now : ℚ) : RecvState × List RecvEvent :=
  if packet_type = 0 then
    if now - st.last_ack_time > 1/2 then
      ({ (sendAck st addr).1 with last_ack_time := now },
       (if data.drop 8 ≠ [] then [RecvEvent.audioData (data.drop 8)] else []) ++
         [(sendAck st addr).2])
    else
      (st, if data.drop 8 ≠ [] then [RecvEvent.audioData (data.drop 8)] else [])
  else if packet_type = 1 then
    ((sendAck st addr).1, [(sendAck st addr).2])
  else if packet_type = 2 then
    handleDisconnect st
  else (st, [])

/-- `UdpAudioReceiver._handle_packet`: reject short or bad-magic datagrams,
otherwise run the common state updates followed by the per-type dispatch.
Returns the new state and the events fired, in firing order. -/
def handlePacket (st : RecvState) (data : List ℕ) (addr : ℕ × ℕ) (now : ℚ) :
    RecvState × List RecvEvent :=
  if data.length < 8 then (st, [])
  else if data.take 2 ≠ MAGIC then (st, [])
  else
    ((dispatch (commonUpdate st addr now (parseSeqBE data)) (data.getD 3 0)
        data addr now).1,
     (connTrack st addr).2 ++
       (dispatch (commonUpdate st addr now (parseSeqBE data)) (data.getD 3 0)
          data addr now).2)

/-- Build a wire packet: magic, version 1, type byte, big-endian sequence,
payload — the format of the Android `UdpAudioStreamer` documented at the top
of `audio_receiver.py`. -/
def mkPacket (t : ℕ) (seq : ℕ) (payload : List ℕ) : List ℕ :=
  [87, 77, 1, t, seq / 16777216 % 256, seq / 65536 % 256,
   seq / 256 % 256, seq % 256] ++ payload

/-- Point-in-time statistics snapshot returned by `get_stats`. -/
structure Stats where
  connected : Bool
  client_ip : Option ℕ
  packets_received : ℕ
  packets_lost : ℕ
  loss_rate : ℚ
deriving DecidableEq, Repr

/-- `UdpAudioReceiver.get_stats` (lines 187-195); the divisor is guarded by
`max(1, packets_received + packets_lost)`. -/
def get_stats (st : RecvState) : Stats :=
  { connected := st.client_address.isSome
    client_ip := st.client_address.map Prod.fst
    packets_received := st.packets_received
    packets_lost := st.packets_lost
    loss_rate := (st.packets_lost : ℚ) /
      ((max 1 (st.packets_received + st.packets_lost) : ℕ) : ℚ) * 100 }

/-- Basic facts about `mkPacket` as seen by the parser. -/
lemma mkPacket_length (t s : ℕ) (p : List ℕ) :
    (mkPacket t s p).length = 8 + p.length := by
  simp [mkPacket]
  omega

lemma mkPacket_take2 (t s : ℕ) (p : List ℕ) :
    (mkPacket t s p).take 2 = MAGIC := by
  simp [mkPacket, MAGIC]

lemma mkPacket_getD3 (t s : ℕ) (p : List ℕ) :
    (mkPacket t s p).getD 3 0 = t := by
  simp [mkPacket, List.getD]

lemma mkPacket_drop8 (t s : ℕ) (p : List ℕ) :
    (mkPacket t s p).drop 8 = p := by
  simp [mkPacket]

lemma parseSeqBE_mkPacket (t s : ℕ) (p : List ℕ) (hs : s < M32) :
    parseSeqBE (mkPacket t s p) = s := by
  simp only [parseSeqBE, mkPacket, List.getD, List.cons_append,
    List.get?_cons_succ, List.get?_cons_zero, Option.getD_some]
  have : s < 4294967296 := hs
  omega

/-- A valid datagram runs the common update then the dispatch. -/
lemma handlePacket_valid (st : RecvState) (data : List ℕ) (addr : ℕ × ℕ)
    (now : ℚ) (h8 : 8 ≤ data.length) (hm : data.take 2 = MAGIC) :
    handlePacket st data addr now =
      ((dispatch (commonUpdate st addr now (parseSeqBE data)) (data.getD 3 0)
          data addr now).1,
       (connTrack st addr).2 ++
         (dispatch (commonUpdate st addr now (parseSeqBE data))
            (data.getD 3 0) data addr now).2) := by
  rw [handlePacket, if_neg (by omega), if_neg (by simp [hm])]

/-- C6: a datagram shorter than 8 bytes, or whose first two bytes differ
from the magic constant, leaves the receiver state unchanged and fires no
event and sends no reply. -/
theorem C6_malformed_no_state_change (st : RecvState) (data : List ℕ)
    (addr : ℕ × ℕ) (now : ℚ)
    (h : data.length < 8 ∨ data.take 2 ≠ MAGIC) :
    handlePacket st data addr now = (st, []) := by
  rcases h with h | h
  · rw [handlePacket, if_pos h]
  · rw [handlePacket]
    by_cases h8 : data.length < 8
    · rw [if_pos h8]
    · rw [if_neg h8, if_pos h]

/-- Witness for C6 at a concrete short datagram and a concrete bad-magic
datagram. -/
theorem C6_malformed_no_state_change_witness :
    handlePacket ⟨some (1, 2), 0, 0, 5, 3, 1, 0⟩ [87, 77, 1] (1, 2) 0 =
        (⟨some (1, 2), 0, 0, 5, 3, 1, 0⟩, []) ∧
      handlePacket ⟨none, 0, 0, 0, -1, 0, 0⟩ [0, 0, 1, 0, 0, 0, 0, 1] (9, 9) 0 =
        (⟨none, 0, 0, 0, -1, 0, 0⟩, []) :=
  ⟨C6_malformed_no_state_change _ _ _ _ (Or.inl (by decide)),
   C6_malformed_no_state_change _ _ _ _ (Or.inr (by decide))⟩

lemma connTrack_same (st : RecvState) (addr : ℕ × ℕ)
    (hc : st.client_address = some addr) : connTrack st addr = (st, []) := by
  simp [connTrack, hc]

lemma lossTrack_eq (st : RecvState) (sequence : ℕ) (h : 0 ≤ st.last_sequence) :
    lossTrack st sequence =
      { st with packets_lost := st.packets_lost +
          (if ((sequence : Int) - (st.last_sequence + 1) % (M32 : Int)) %
                (M32 : Int) < 1000
           then (((sequence : Int) - (st.last_sequence + 1) % (M32 : Int)) %
                 (M32 : Int)).toNat
           else 0) } := by
  unfold lossTrack
  rw [if_pos h]
  by_cases he : (sequence : Int) = (st.last_sequence + 1) % (M32 : Int)
  · rw [if_neg (by simp [he])]
    simp [he]
  · rw [if_pos he]
    by_cases hl : ((sequence : Int) - (st.last_sequence + 1) % (M32 : Int)) %
        (M32 : Int) < 1000
    · rw [if_pos hl, if_pos hl]
    · rw [if_neg hl, if_neg hl]
      simp

/-- The per-type dispatch never touches `packets_lost`. -/
lemma dispatch_packets_lost (st : RecvState) (t : ℕ) (data : List ℕ)
    (addr : ℕ × ℕ) (now : ℚ) :
    (dispatch st t data addr now).1.packets_lost = st.packets_lost := by
  unfold dispatch sendAck handleDisconnect
  repeat' split
  all_goals rfl

/-- The per-type dispatch never touches `last_sequence`. -/
lemma dispatch_last_sequence (st : RecvState) (t : ℕ) (data : List ℕ)
    (addr : ℕ × ℕ) (now : ℚ) :
    (dispatch st t data addr now).1.last_sequence = st.last_sequence := by
  unfold dispatch sendAck handleDisconnect
  repeat' split
  all_goals rfl

/-- The per-type dispatch never touches `packets_received`. -/
lemma dispatch_packets_received (st : RecvState) (t : ℕ) (data : List ℕ)
    (addr : ℕ × ℕ) (now : ℚ) :
    (dispatch st t data addr now).1.packets_received = st.packets_received := by
  unfold dispatch sendAck handleDisconnect
  repeat' split
  all_goals rfl

/-- Only the DISCONNECT branch can change `client_address`. -/
lemma dispatch_client_address (st : RecvState) (t : ℕ) (data : List ℕ)
    (addr : ℕ × ℕ) (now : ℚ) (ht : t ≠ 2) :
    (dispatch st t data addr now).1.client_address = st.client_address := by
  unfold dispatch sendAck handleDisconnect
  rcases Nat.decEq t 0 with h0 | h0
  · rw [if_neg h0]
    rcases Nat.decEq t 1 with h1 | h1
    · rw [if_neg h1, if_neg ht]
    · rw [if_pos h1]
  · rw [if_pos h0]
    split <;> rfl

/-- `commonUpdate` on a packet from the connection's own address: counters
advance, loss tracking runs against the old `last_sequence`, and
`last_sequence` becomes the new sequence. -/
lemma commonUpdate_same (st : RecvState) (addr : ℕ × ℕ) (now : ℚ)
    (sequence : ℕ) (hc : st.client_address = some addr) :
    commonUpdate st addr now sequence =
      { lossTrack
          { st with last_packet_time := now,
                    packets_received := st.packets_received + 1 } sequence
        with last_sequence := (sequence : Int) } := by
  unfold commonUpdate
  rw [connTrack_same st addr hc]

/-- Handling any valid packet from the current connection adds the
threshold-guarded gap to `packets_lost`, as a single expression. -/
lemma handlePacket_lost_delta (st : RecvState) (addr : ℕ × ℕ) (now : ℚ)
    (t s : ℕ) (payload : List ℕ) (hc : st.client_address = some addr)
    (hl : 0 ≤ st.last_sequence) (hs : s < M32) :
    (handlePacket st (mkPacket t s payload) addr now).1.packets_lost =
      st.packets_lost +
        (if ((s : Int) - (st.last_sequence + 1) % (M32 : Int)) % (M32 : Int)
            < 1000
         then (((s : Int) - (st.last_sequence + 1) % (M32 : Int)) %
               (M32 : Int)).toNat
         else 0) := by
  rw [handlePacket_valid st _ addr now (by rw [mkPacket_length]; omega)
      (mkPacket_take2 t s payload)]
  rw [parseSeqBE_mkPacket t s payload hs]
  rw [dispatch_packets_lost, commonUpdate_same st addr now s hc]
  rw [lossTrack_eq _ s (by simpa using hl)]

/-- Handling any valid packet from the current connection sets
`last_sequence` to the packet's sequence, unconditionally. -/
lemma handlePacket_last_sequence (st : RecvState) (addr : ℕ × ℕ) (now : ℚ)
    (t s : ℕ) (payload : List ℕ) (_hc : st.client_address = some addr)
    (hs : s < M32) :
    (handlePacket st (mkPacket t s payload) addr now).1.last_sequence =
      (s : Int) := by
  rw [handlePacket_valid st _ addr now (by rw [mkPacket_length]; omega)
      (mkPacket_take2 t s payload)]
  rw [parseSeqBE_mkPacket t s payload hs]
  rw [dispatch_last_sequence]
  unfold commonUpdate
  rfl

/-- The successor of a sequence number in the `u32` space, as the receiver
computes it: `(last_sequence + 1) & 0xFFFFFFFF`. -/
def nextSeq (s : Int) : ℕ := ((s + 1) % (M32 : Int)).toNat

/-- Drive the packet handler over a run of `n` AUDIO packets whose sequence
numbers are strictly consecutive (each the expected successor of the
receiver's current `last_sequence`), all from the same sender. -/
def handleSeqRun (addr : ℕ × ℕ) (now : ℚ) (payload : List ℕ) :
    RecvState → ℕ → RecvState
  | st, 0 => st
  | st, n + 1 =>
      handleSeqRun addr now payload
        ((handlePacket st (mkPacket 0 (nextSeq st.last_sequence) payload)
            addr now).1) n

lemma nextSeq_lt (s : Int) : nextSeq s < M32 := by
  have h1 : (0 : Int) < (M32 : Int) := by decide
  have h2 := Int.emod_lt_of_pos (s + 1) h1
  have h3 := Int.emod_nonneg (s + 1) (by decide : (M32 : Int) ≠ 0)
  unfold nextSeq
  omega

/-- A consecutive packet from the current connection leaves `packets_lost`
unchanged and advances `last_sequence` to its own sequence number. -/
lemma handlePacket_consec (st : RecvState) (addr : ℕ × ℕ) (now : ℚ)
    (payload : List ℕ) (hc : st.client_address = some addr)
    (hl : 0 ≤ st.last_sequence) :
    (handlePacket st (mkPacket 0 (nextSeq st.last_sequence) payload)
        addr now).1.packets_lost = st.packets_lost ∧
    (handlePacket st (mkPacket 0 (nextSeq st.last_sequence) payload)
        addr now).1.last_sequence = (nextSeq st.last_sequence : Int) ∧
    (handlePacket st (mkPacket 0 (nextSeq st.last_sequence) payload)
        addr now).1.client_address = some addr := by
  have hs := nextSeq_lt st.last_sequence
  have hcast : ((nextSeq st.last_sequence : ℕ) : Int) =
      (st.last_sequence + 1) % (M32 : Int) := by
    unfold nextSeq
    exact Int.toNat_of_nonneg
      (Int.emod_nonneg _ (by decide : (M32 : Int) ≠ 0))
  refine ⟨?_, handlePacket_last_sequence st addr now 0 _ payload hc hs, ?_⟩
  · rw [handlePacket_lost_delta st addr now 0 _ payload hc hl hs, hcast]
    simp
  · rw [handlePacket_valid st _ addr now (by rw [mkPacket_length]; omega)
        (mkPacket_take2 0 _ payload)]
    rw [mkPacket_getD3]
    rw [dispatch_client_address _ _ _ _ _ (by decide)]
    unfold commonUpdate
    rw [connTrack_same st addr hc, lossTrack_eq _ _ (by simpa using hl)]
    simpa using hc

/-- Over a run of consecutive packets, `packets_lost` never changes. -/
lemma handleSeqRun_packets_lost (addr : ℕ × ℕ) (now : ℚ) (payload : List ℕ)
    (n : ℕ) :
    ∀ st : RecvState, st.client_address = some addr → 0 ≤ st.last_sequence →
      (handleSeqRun addr now payload st n).packets_lost = st.packets_lost := by
  induction n with
  | zero => intro st _ _; rfl
  | succ n ih =>
      intro st hc hl
      obtain ⟨h1, h2, h3⟩ := handlePacket_consec st addr now payload hc hl
      unfold handleSeqRun
      rw [ih _ h3 (by rw [h2]; positivity), h1]

/-- C1: loss accounting of `_handle_packet`.  For a connection whose
`last_sequence` is set, a valid packet with sequence `s` changes
`packets_lost` by `gap = (s - (last_sequence + 1) mod 2^32) mod 2^32` when
`gap < 1000` and by nothing when `gap ≥ 1000` (so a gap of 0 changes
nothing), sets `last_sequence := s` unconditionally, and over any run of
strictly consecutive sequences `packets_lost` stays fixed. -/
theorem C1_loss_accounting :
    (∀ (st : RecvState) (addr : ℕ × ℕ) (now : ℚ) (t s : ℕ)
        (payload : List ℕ),
        st.client_address = some addr → 0 ≤ st.last_sequence → s < M32 →
        (handlePacket st (mkPacket t s payload) addr now).1.packets_lost =
            st.packets_lost +
              (if ((s : Int) - (st.last_sequence + 1) % (M32 : Int)) %
                    (M32 : Int) < 1000
               then (((s : Int) - (st.last_sequence + 1) % (M32 : Int)) %
                     (M32 : Int)).toNat
               else 0) ∧
          (handlePacket st (mkPacket t s payload) addr now).1.last_sequence =
            (s : Int)) ∧
    (∀ (st : RecvState) (addr : ℕ × ℕ) (now : ℚ) (payload : List ℕ) (n : ℕ),
        st.client_address = some addr → 0 ≤ st.last_sequence →
        (handleSeqRun addr now payload st n).packets_lost = st.packets_lost) :=
  ⟨fun st addr now t s payload hc hl hs =>
    ⟨handlePacket_lost_delta st addr now t s payload hc hl hs,
     handlePacket_last_sequence st addr now t s payload hc hs⟩,
   fun st addr now payload n hc hl =>
    handleSeqRun_packets_lost addr now payload n st hc hl⟩

/-- Witness for C1: a connection at `last_sequence = 10` receiving sequence
14 records 3 lost packets; receiving sequence 2000000 records none; a run
of 5 consecutive packets records none. -/
theorem C1_loss_accounting_witness :
    (handlePacket ⟨some (1, 2), 0, 0, 5, 10, 0, 0⟩ (mkPacket 0 14 [3, 4])
        (1, 2) 0).1.packets_lost = 3 ∧
    (handlePacket ⟨some (1, 2), 0, 0, 5, 10, 0, 0⟩ (mkPacket 0 2000000 [3, 4])
        (1, 2) 0).1.packets_lost = 0 ∧
    (handleSeqRun (1, 2) 0 [3, 4] ⟨some (1, 2), 0, 0, 5, 10, 0, 0⟩
        5).packets_lost = 0 := by
  refine ⟨?_, ?_, ?_⟩
  · rw [(C1_loss_accounting.1 ⟨some (1, 2), 0, 0, 5, 10, 0, 0⟩ (1, 2) 0 0 14
        [3, 4] rfl (by decide) (by decide)).1]
    decide
  · rw [(C1_loss_accounting.1 ⟨some (1, 2), 0, 0, 5, 10, 0, 0⟩ (1, 2) 0 0
        2000000 [3, 4] rfl (by decide) (by decide)).1]
    decide
  · rw [C1_loss_accounting.2 ⟨some (1, 2), 0, 0, 5, 10, 0, 0⟩ (1, 2) 0 [3, 4]
        5 rfl (by decide)]

/-- Recognize the `on_client_connected` event. -/
def isConnectedEvent : RecvEvent → Bool
  | RecvEvent.clientConnected _ => true
  | _ => false

/-- The reset connection state installed by lines 121-125 for a packet from
a new address. -/
def resetConn (st : RecvState) (addr : ℕ × ℕ) : RecvState :=
  { st with client_address := some addr, last_sequence := -1,
            packets_lost := 0, packets_received := 0 }

lemma connTrack_new (st : RecvState) (addr : ℕ × ℕ)
    (hc : st.client_address ≠ some addr) :
    connTrack st addr =
      (resetConn st addr, [RecvEvent.clientConnected addr.1]) := by
  rw [connTrack, if_pos hc]
  rfl

lemma lossTrack_neg (st : RecvState) (q : ℕ) (h : st.last_sequence < 0) :
    lossTrack st q = st := by
  unfold lossTrack
  rw [if_neg (by omega)]

lemma dispatch_no_connected (st : RecvState) (t : ℕ) (data : List ℕ)
    (addr : ℕ × ℕ) (now : ℚ) :
    (dispatch st t data addr now).2.countP isConnectedEvent = 0 := by
  unfold dispatch sendAck handleDisconnect
  repeat' split
  all_goals simp [isConnectedEvent]

lemma commonUpdate_new (st : RecvState) (addr : ℕ × ℕ) (now : ℚ) (q : ℕ)
    (hc : st.client_address ≠ some addr) :
    commonUpdate st addr now q =
      { st with client_address := some addr, last_packet_time := now,
                packets_received := 1, last_sequence := (q : Int),
                packets_lost := 0 } := by
  unfold commonUpdate
  rw [connTrack_new st addr hc]
  rw [lossTrack_neg _ _ (by simp [resetConn])]
  rfl

/-- C5: a valid packet from an address other than the current connection's
(or when none exists) is handled exactly as if the connection had just been
reset for the sender — `last_sequence` unset, loss and received counters
zeroed — with a single client-connected event for the sender's ip prepended;
afterwards `packets_lost = 0` and `packets_received = 1` (the zeroed counter
plus this packet). -/
theorem C5_new_connection (st : RecvState) (data : List ℕ) (addr : ℕ × ℕ)
    (now : ℚ) (hc : st.client_address ≠ some addr) (h8 : 8 ≤ data.length)
    (hm : data.take 2 = MAGIC) :
    handlePacket st data addr now =
      ((handlePacket (resetConn st addr) data addr now).1,
       RecvEvent.clientConnected addr.1 ::
         (handlePacket (resetConn st addr) data addr now).2) ∧
    (handlePacket st data addr now).2.countP isConnectedEvent = 1 ∧
    (handlePacket st data addr now).1.packets_lost = 0 ∧
    (handlePacket st data addr now).1.packets_received = 1 := by
  have hval := handlePacket_valid st data addr now h8 hm
  have hval2 := handlePacket_valid (resetConn st addr) data addr now h8 hm
  have hct := connTrack_new st addr hc
  have hct2 : connTrack (resetConn st addr) addr = (resetConn st addr, []) :=
    connTrack_same _ _ rfl
  have hcu : commonUpdate st addr now (parseSeqBE data) =
      commonUpdate (resetConn st addr) addr now (parseSeqBE data) := by
    unfold commonUpdate
    rw [hct, hct2]
  refine ⟨?_, ?_, ?_, ?_⟩
  · rw [hval, hval2, hcu, hct, hct2]
    simp
  · rw [hval, hct]
    simp [isConnectedEvent, dispatch_no_connected]
  · rw [hval, dispatch_packets_lost, commonUpdate_new st addr now _ hc]
  · rw [hval, dispatch_packets_received, commonUpdate_new st addr now _ hc]

/-- Witness for C5: a first packet, with no prior connection, yields one
connect event, zero loss and one received packet, and equals the
reset-then-handle composition. -/
theorem C5_new_connection_witness :
    handlePacket ⟨none, 0, 0, 7, 42, 9, 0⟩ (mkPacket 0 3 [1]) (5, 6) 1 =
      ((handlePacket (resetConn ⟨none, 0, 0, 7, 42, 9, 0⟩ (5, 6))
          (mkPacket 0 3 [1]) (5, 6) 1).1,
       RecvEvent.clientConnected 5 ::
         (handlePacket (resetConn ⟨none, 0, 0, 7, 42, 9, 0⟩ (5, 6))
            (mkPacket 0 3 [1]) (5, 6) 1).2) ∧
    (handlePacket ⟨none, 0, 0, 7, 42, 9, 0⟩ (mkPacket 0 3 [1]) (5, 6)
        1).2.countP isConnectedEvent = 1 ∧
    (handlePacket ⟨none, 0, 0, 7, 42, 9, 0⟩ (mkPacket 0 3 [1]) (5, 6)
        1).1.packets_lost = 0 ∧
    (handlePacket ⟨none, 0, 0, 7, 42, 9, 0⟩ (mkPacket 0 3 [1]) (5, 6)
        1).1.packets_received = 1 :=
  C5_new_connection ⟨none, 0, 0, 7, 42, 9, 0⟩ (mkPacket 0 3 [1]) (5, 6) 1
    (by decide) (by decide) (by decide)

/-- Concrete receiver state used to refute C3 as stated: an active
connection with 5 packets received. -/
def c3State : RecvState := ⟨some (7, 9), 0, 0, 5, 10, 2, 3⟩

/-- Counterexample to C3 as stated: a valid packet of unknown type 4 from
the current connection does change connection state — `packets_received`
is incremented (it also updates `last_packet_time` and `last_sequence`). -/
theorem C3_unknown_type_counterexample :
    (handlePacket c3State (mkPacket 4 11 []) (7, 9) 0).1.packets_received ≠
      c3State.packets_received := by decide

lemma dispatch_unknown (st : RecvState) (t : ℕ) (data : List ℕ)
    (addr : ℕ × ℕ) (now : ℚ) (ht0 : t ≠ 0) (ht1 : t ≠ 1) (ht2 : t ≠ 2) :
    dispatch st t data addr now = (st, []) := by
  unfold dispatch
  rw [if_neg ht0, if_neg ht1, if_neg ht2]

/-- C3 amended: a packet with valid magic and length ≥ 8 but unknown type
is not dispatched — no audio delivery, no ACK, no disconnect — but it is
not free of state change: it runs the same connection-tracking, counter,
loss-accounting and `last_sequence` updates as known types, and the only
event it can fire is the client-connected event of address tracking. -/
theorem C3_unknown_type_amended (st : RecvState) (data : List ℕ)
    (addr : ℕ × ℕ) (now : ℚ) (t : ℕ) (h8 : 8 ≤ data.length)
    (hm : data.take 2 = MAGIC) (hty : data.getD 3 0 = t) (ht0 : t ≠ 0)
    (ht1 : t ≠ 1) (ht2 : t ≠ 2) (_ht3 : t ≠ 3) :
    handlePacket st data addr now =
      (commonUpdate st addr now (parseSeqBE data), (connTrack st addr).2) ∧
    ∀ e ∈ (handlePacket st data addr now).2, isConnectedEvent e = true := by
  have hval := handlePacket_valid st data addr now h8 hm
  rw [hty] at hval
  rw [hval, dispatch_unknown _ _ _ _ _ ht0 ht1 ht2]
  refine ⟨by simp, ?_⟩
  intro e he
  simp only [List.append_nil] at he
  unfold connTrack at he
  rcases h : decide (st.client_address ≠ some addr) with _ | _
  · rw [if_neg (by simpa using h)] at he
    simp at he
  · rw [if_pos (by simpa using h)] at he
    simp at he
    rw [he]
    rfl

/-- Witness for C3 amended, at an unknown type 5 from a connected client. -/
theorem C3_unknown_type_amended_witness :
    handlePacket c3State (mkPacket 5 11 []) (7, 9) 0 =
      (commonUpdate c3State (7, 9) 0 (parseSeqBE (mkPacket 5 11 [])),
       (connTrack c3State (7, 9)).2) ∧
    ∀ e ∈ (handlePacket c3State (mkPacket 5 11 []) (7, 9) 0).2,
      isConnectedEvent e = true :=
  C3_unknown_type_amended c3State (mkPacket 5 11 []) (7, 9) 0 5 (by decide)
    (by decide) (by decide) (by decide) (by decide) (by decide) (by decide)

/-- Concrete receiver state used to refute C8: an active connection whose
`last_sequence` is 0 and which has lost no packets yet. -/
def c8State : RecvState := ⟨some (7, 9), 0, 0, 1, 0, 0, 0⟩

/-- Counterexample to C8 as stated: a KEEPALIVE from the current connection
carrying sequence 5 (expected 1) raises `packets_lost` from 0 to 4 — the
loss accounting of `_handle_packet` runs before the per-type dispatch, for
KEEPALIVE packets too. -/
theorem C8_keepalive_counterexample :
    c8State.packets_lost = 0 ∧
    (handlePacket c8State (mkPacket 1 5 []) (7, 9) 0).1.packets_lost = 4 := by
  decide

lemma connTrack_ack_sequence (st : RecvState) (addr : ℕ × ℕ) :
    (connTrack st addr).1.ack_sequence = st.ack_sequence := by
  unfold connTrack
  split
  all_goals rfl

lemma lossTrack_ack_sequence (st : RecvState) (q : ℕ) :
    (lossTrack st q).ack_sequence = st.ack_sequence := by
  unfold lossTrack
  repeat' split
  all_goals rfl

lemma commonUpdate_ack_sequence (st : RecvState) (addr : ℕ × ℕ) (now : ℚ)
    (q : ℕ) : (commonUpdate st addr now q).ack_sequence = st.ack_sequence := by
  unfold commonUpdate
  rw [show ({ lossTrack
      { (connTrack st addr).1 with
        last_packet_time := now,
        packets_received := (connTrack st addr).1.packets_received + 1 }
      q with last_sequence := (q : Int) } : RecvState).ack_sequence =
      (lossTrack
        { (connTrack st addr).1 with
          last_packet_time := now,
          packets_received := (connTrack st addr).1.packets_received + 1 }
        q).ack_sequence from rfl]
  rw [lossTrack_ack_sequence]
  exact connTrack_ack_sequence st addr

lemma dispatch_keepalive (st : RecvState) (data : List ℕ) (addr : ℕ × ℕ)
    (now : ℚ) :
    dispatch st 1 data addr now =
      ((sendAck st addr).1, [(sendAck st addr).2]) := by
  unfold dispatch
  rw [if_neg (by decide), if_pos rfl]

/-- C8 amended: a KEEPALIVE from the current connection always sends exactly
one immediate ACK back (carrying, then incrementing mod 2^32, the outgoing
ack counter); but it passes through the same loss accounting as every other
packet: `packets_lost` grows by the gap its sequence number implies when
that gap is below 1000, so it is unchanged only when the sequence is the
expected one or the gap is at or above the threshold. -/
theorem C8_keepalive_amended (st : RecvState) (addr : ℕ × ℕ) (now : ℚ)
    (s : ℕ) (hc : st.client_address = some addr) (hl : 0 ≤ st.last_sequence)
    (hs : s < M32) :
    (handlePacket st (mkPacket 1 s []) addr now).2 =
      [RecvEvent.ackSent addr st.ack_sequence] ∧
    (handlePacket st (mkPacket 1 s []) addr now).1.ack_sequence =
      (st.ack_sequence + 1) % M32 ∧
    (handlePacket st (mkPacket 1 s []) addr now).1.packets_lost =
      st.packets_lost +
        (if ((s : Int) - (st.last_sequence + 1) % (M32 : Int)) % (M32 : Int)
            < 1000
         then (((s : Int) - (st.last_sequence + 1) % (M32 : Int)) %
               (M32 : Int)).toNat
         else 0) := by
  have hval := handlePacket_valid st (mkPacket 1 s []) addr now
    (by rw [mkPacket_length]; omega) (mkPacket_take2 1 s [])
  rw [mkPacket_getD3] at hval
  refine ⟨?_, ?_, handlePacket_lost_delta st addr now 1 s [] hc hl hs⟩
  · rw [hval, dispatch_keepalive, connTrack_same st addr hc]
    simp [sendAck, commonUpdate_ack_sequence]
  · rw [hval, dispatch_keepalive]
    simp [sendAck, commonUpdate_ack_sequence]

/-- Witness for C8 amended: a consecutive KEEPALIVE (sequence 1 after 0)
ACKs and leaves `packets_lost` at 0. -/
theorem C8_keepalive_amended_witness :
    (handlePacket c8State (mkPacket 1 1 []) (7, 9) 0).2 =
      [RecvEvent.ackSent (7, 9) 0] ∧
    (handlePacket c8State (mkPacket 1 1 []) (7, 9) 0).1.ack_sequence = 1 ∧
    (handlePacket c8State (mkPacket 1 1 []) (7, 9) 0).1.packets_lost = 0 := by
  have h := C8_keepalive_amended c8State (7, 9) 0 1 rfl (by decide) (by decide)
  refine ⟨h.1, ?_, ?_⟩
  · rw [h.2.1]
    decide
  · rw [h.2.2]
    decide

/-- C10: `get_stats` is total and its `loss_rate` is always well defined:
the divisor is `max 1 (packets_received + packets_lost) ≥ 1`, and for every
receiver state the returned rate lies in `[0, 100]`. -/
theorem C10_loss_rate_bounds (st : RecvState) :
    0 ≤ (get_stats st).loss_rate ∧ (get_stats st).loss_rate ≤ 100 := by
  unfold get_stats
  simp only
  constructor
  · positivity
  · have hd0 : (0 : ℚ) <
        ((max 1 (st.packets_received + st.packets_lost) : ℕ) : ℚ) := by
      exact_mod_cast Nat.lt_of_lt_of_le Nat.zero_lt_one (Nat.le_max_left 1 _)
    have hle : (st.packets_lost : ℚ) ≤
        ((max 1 (st.packets_received + st.packets_lost) : ℕ) : ℚ) := by
      exact_mod_cast Nat.le_trans (Nat.le_add_left _ _) (Nat.le_max_right 1 _)
    calc (st.packets_lost : ℚ) /
          ((max 1 (st.packets_received + st.packets_lost) : ℕ) : ℚ) * 100
        ≤ 1 * 100 := by
          apply mul_le_mul_of_nonneg_right ((div_le_one hd0).mpr hle)
          norm_num
      _ = 100 := by norm_num

/-- Playback renderer state: the fields of `AudioOutput` touched by `write`,
`_callback` and `set_volume`.  The jitter buffer is an ordered list of
int16 samples. -/
structure AudioState where
  buffer : List Int
  current_level : ℚ
  volume : ℚ
  running : Bool
deriving DecidableEq, Repr

/-- Truncation toward zero: what `astype(np.int16)` does to an in-range
float value. -/
def qtrunc (q : ℚ) : Int := if 0 ≤ q then ⌊q⌋ else ⌈q⌉

/-- `.clip(-32768, 32767)` on one value. -/
def clip16 (q : ℚ) : ℚ := min 32767 (max (-32768) q)

/-- One sample through the volume stage of `write` (line 130):
`(samples.astype(np.float32) * volume).clip(-32768, 32767).astype(np.int16)`.
Scaling is modelled in exact rational arithmetic; the float32 product is
exact at the volumes the spec pins down (0.0, 1.0, 2.0). -/
def scaleSample (v : ℚ) (s : Int) : Int := qtrunc (clip16 (v * (s : ℚ)))

/-- Volume stage of `write` (lines 129-130), applied only when
`volume != 1.0`. -/
def applyVolume (v : ℚ) (samples : List Int) : List Int :=
  if v ≠ 1 then samples.map (scaleSample v) else samples

/-- Ceiling trim of `write` (lines 141-145): when the buffer exceeds
`max_buffer = 7200` samples (150 ms at 48 kHz), keep only the newest 7200
(`self.buffer = self.buffer[-max_buffer:]`). -/
def trimBuffer (buf : List Int) : List Int :=
  if buf.length > 7200 then buf.drop (buf.length - 7200) else buf

/-- `AudioOutput.write` (lines 120-148): no-op when not running or the
input is empty; otherwise scale by volume, recompute the level from the
scaled chunk, append to the buffer and trim to the ceiling.  The RMS level
number itself (`np.sqrt(np.mean(samples**2))`, lines 133-135) is a
floating-point computation; it is abstracted as the parameter `lvl`,
mapping the scaled chunk to the new level, guarded by the same
`len(samples) > 0` test as the code. -/
def write (lvl : List Int → ℚ) (st : AudioState) (samples : List Int) :
    AudioState :=
  if st.running = false ∨ samples.length = 0 then st
  else
    { st with
      current_level :=
        if 0 < (applyVolume st.volume samples).length then
          lvl (applyVolume st.volume samples)
        else st.current_level,
      buffer := trimBuffer (st.buffer ++ applyVolume st.volume samples) }

/-- `AudioOutput._callback` (lines 150-171): with at least `frames` buffered
samples, emit the first `frames` and advance; with some but fewer, emit what
exists padded with the last sample and drain the buffer; with none, emit
silence and zero the level.  (The code's inner `available > 0` test in the
middle branch is always true there.)  Returns the block written to
`outdata` and the new state. -/
def callback (st : AudioState) (frames : ℕ) : List Int × AudioState :=
  if frames ≤ st.buffer.length then
    (st.buffer.take frames, { st with buffer := st.buffer.drop frames })
  else if 0 < st.buffer.length then
    (st.buffer ++
       List.replicate (frames - st.buffer.length) (st.buffer.getLastD 0),
     { st with buffer := [] })
  else
    (List.replicate frames 0, { st with current_level := 0 })

/-- `AudioOutput.set_volume` (lines 177-179): clamp to `[0, 2]`. -/
def set_volume (st : AudioState) (v : ℚ) : AudioState :=
  { st with volume := max 0 (min 2 v) }

lemma applyVolume_length (v : ℚ) (samples : List Int) :
    (applyVolume v samples).length = samples.length := by
  unfold applyVolume
  split
  · simp
  · rfl

lemma applyVolume_one (samples : List Int) : applyVolume 1 samples = samples := by
  unfold applyVolume
  simp

lemma scaleSample_zero (s : Int) : scaleSample 0 s = 0 := by
  unfold scaleSample clip16 qtrunc
  norm_num

lemma applyVolume_zero (samples : List Int) :
    applyVolume 0 samples = List.replicate samples.length 0 := by
  unfold applyVolume
  rw [if_pos (by norm_num)]
  induction samples with
  | nil => rfl
  | cons a l ih => simp [ih, scaleSample_zero, List.replicate_succ]

lemma trimBuffer_length (buf : List Int) :
    (trimBuffer buf).length = min buf.length 7200 := by
  unfold trimBuffer
  split
  · simp
    omega
  · simp
    omega

lemma trimBuffer_suffix (buf : List Int) : trimBuffer buf <:+ buf := by
  unfold trimBuffer
  split
  · exact List.drop_suffix _ _
  · exact List.suffix_refl _

lemma trimBuffer_of_le (buf : List Int) (h : buf.length ≤ 7200) :
    trimBuffer buf = buf := by
  unfold trimBuffer
  rw [if_neg (by omega)]

lemma write_buffer (lvl : List Int → ℚ) (st : AudioState) (samples : List Int)
    (hr : st.running = true) (hs : samples ≠ []) :
    (write lvl st samples).buffer =
      trimBuffer (st.buffer ++ applyVolume st.volume samples) := by
  unfold write
  rw [if_neg]
  rintro (h | h)
  · rw [hr] at h
    cases h
  · exact hs (List.length_eq_zero.mp h)

/-- C2: the jitter-buffer ceiling.  A buffer at or under 7200 samples stays
at or under 7200 after any write; the post-write buffer is always a suffix
of (old buffer ++ newly written scaled samples), i.e. the retained samples
are the most recently written ones; a write that would exceed the ceiling
trims to exactly 7200; and any sequence of writes keeps the length at or
under 7200. -/
theorem C2_buffer_ceiling :
    (∀ (lvl : List Int → ℚ) (st : AudioState) (samples : List Int),
        st.buffer.length ≤ 7200 →
        (write lvl st samples).buffer.length ≤ 7200) ∧
    (∀ (lvl : List Int → ℚ) (st : AudioState) (samples : List Int),
        st.running = true →
        (write lvl st samples).buffer <:+
          st.buffer ++ applyVolume st.volume samples) ∧
    (∀ (lvl : List Int → ℚ) (st : AudioState) (samples : List Int),
        st.running = true → samples ≠ [] →
        7200 < st.buffer.length + samples.length →
        (write lvl st samples).buffer.length = 7200) ∧
    (∀ (lvl : List Int → ℚ) (st : AudioState) (chunks : List (List Int)),
        st.buffer.length ≤ 7200 →
        (chunks.foldl (write lvl) st).buffer.length ≤ 7200) := by
  have h1 : ∀ (lvl : List Int → ℚ) (st : AudioState) (samples : List Int),
      st.buffer.length ≤ 7200 → (write lvl st samples).buffer.length ≤ 7200 := by
    intro lvl st samples h
    unfold write
    split
    · exact h
    · show (trimBuffer (st.buffer ++ applyVolume st.volume samples)).length
        ≤ 7200
      rw [trimBuffer_length]
      omega
  refine ⟨h1, ?_, ?_, ?_⟩
  · intro lvl st samples hr
    by_cases hs : samples = []
    · subst hs
      unfold write
      rw [if_pos (show st.running = false ∨ ([] : List Int).length = 0 from
        Or.inr rfl)]
      simp [applyVolume]
    · rw [write_buffer lvl st samples hr hs]
      exact trimBuffer_suffix _
  · intro lvl st samples hr hs hgt
    rw [write_buffer lvl st samples hr hs, trimBuffer_length]
    rw [List.length_append, applyVolume_length]
    omega
  · intro lvl st chunks
    induction chunks generalizing st with
    | nil => intro h; exact h
    | cons c cs ih =>
        intro h
        exact ih _ (h1 lvl st c h)

/-- Witness for C2: writing 8000 samples into an empty running buffer
leaves exactly 7200 buffered, a suffix of what was written. -/
theorem C2_buffer_ceiling_witness :
    (write (fun _ => 0) ⟨[], 0, 1, true⟩ (List.replicate 8000 3)).buffer.length
        ≤ 7200 ∧
    (write (fun _ => 0) ⟨[], 0, 1, true⟩ (List.replicate 8000 3)).buffer <:+
      ([] : List Int) ++ applyVolume 1 (List.replicate 8000 3) ∧
    (write (fun _ => 0) ⟨[], 0, 1, true⟩ (List.replicate 8000 3)).buffer.length
        = 7200 ∧
    ((([List.replicate 8000 3] : List (List Int))).foldl
        (write (fun _ => 0)) ⟨[], 0, 1, true⟩).buffer.length ≤ 7200 :=
  ⟨C2_buffer_ceiling.1 (fun _ => 0) ⟨[], 0, 1, true⟩ (List.replicate 8000 3)
      (by simp),
   C2_buffer_ceiling.2.1 (fun _ => 0) ⟨[], 0, 1, true⟩ (List.replicate 8000 3)
      rfl,
   C2_buffer_ceiling.2.2.1 (fun _ => 0) ⟨[], 0, 1, true⟩
      (List.replicate 8000 3) rfl
      (by
        intro h
        have hl := congrArg List.length h
        rw [List.length_replicate, List.length_nil] at hl
        omega)
      (by
        have h0 : ((⟨[], 0, 1, true⟩ : AudioState).buffer).length = 0 := rfl
        rw [h0, List.length_replicate]
        omega),
   C2_buffer_ceiling.2.2.2 (fun _ => 0) ⟨[], 0, 1, true⟩
      [List.replicate 8000 3] (by simp)⟩

/-- C4: the pull callback on an under-full buffer.  With between 1 and
`frames - 1` buffered samples, the output is the buffered samples followed
by repetitions of the last one, of total length exactly `frames`; the
buffer is drained and the level is left as last computed.  With 0 buffered
samples (and a non-empty block), the output is all zeros and the level is
reset to 0. -/
theorem C4_underfull_callback (st : AudioState) (frames : ℕ) :
    (1 ≤ st.buffer.length → st.buffer.length < frames →
      (callback st frames).1 =
          st.buffer ++
            List.replicate (frames - st.buffer.length) (st.buffer.getLastD 0) ∧
        (callback st frames).1.length = frames ∧
        (callback st frames).2.buffer = [] ∧
        (callback st frames).2.current_level = st.current_level) ∧
    (st.buffer.length = 0 → 0 < frames →
      (callback st frames).1 = List.replicate frames 0 ∧
        (callback st frames).2.current_level = 0) := by
  constructor
  · intro h1 h2
    unfold callback
    rw [if_neg (by omega), if_pos (by omega)]
    refine ⟨rfl, ?_, rfl, rfl⟩
    simp
    omega
  · intro h0 hf
    unfold callback
    rw [if_neg (by omega), if_neg (by omega)]
    exact ⟨rfl, rfl⟩

/-- Witness for C4: a buffer of two samples pulled at block size 4, and an
empty buffer pulled at block size 4. -/
theorem C4_underfull_callback_witness :
    ((callback ⟨[5, 6], 3/7, 1, true⟩ 4).1 = [5, 6, 6, 6] ∧
     (callback ⟨[5, 6], 3/7, 1, true⟩ 4).2.buffer = [] ∧
     (callback ⟨[5, 6], 3/7, 1, true⟩ 4).2.current_level = 3/7) ∧
    ((callback ⟨[], 3/7, 1, true⟩ 4).1 = [0, 0, 0, 0] ∧
     (callback ⟨[], 3/7, 1, true⟩ 4).2.current_level = 0) := by
  have h1 := (C4_underfull_callback ⟨[5, 6], 3/7, 1, true⟩ 4).1
    (by decide) (by decide)
  have h2 := (C4_underfull_callback ⟨[], 3/7, 1, true⟩ 4).2 rfl (by decide)
  exact ⟨⟨by simpa using h1.1, h1.2.2.1, h1.2.2.2⟩,
         ⟨by simpa using h2.1, h2.2⟩⟩

/-- C7: FIFO round trip.  From an empty running buffer at unity volume,
writing `2 * frames` samples and then pulling one block of `frames` outputs
exactly the first half, unmodified, and leaves exactly the second half
buffered. -/
theorem C7_fifo_round_trip (lvl : List Int → ℚ) (st : AudioState)
    (xs : List Int) (frames : ℕ) (hr : st.running = true) (hv : st.volume = 1)
    (hb : st.buffer = []) (hx : xs.length = 2 * frames)
    (hc : 2 * frames ≤ 7200) :
    (callback (write lvl st xs) frames).1 = xs.take frames ∧
    (callback (write lvl st xs) frames).2.buffer = xs.drop frames := by
  by_cases hf : frames = 0
  · subst hf
    have hxe : xs = [] := List.length_eq_zero.mp (by omega)
    subst hxe
    unfold write
    rw [if_pos (show st.running = false ∨ ([] : List Int).length = 0 from
      Or.inr rfl)]
    unfold callback
    rw [if_pos (by omega)]
    simp [hb]
  · have hbuf : (write lvl st xs).buffer = xs := by
      rw [write_buffer lvl st xs hr
        (by intro h; rw [h] at hx; simp at hx; omega)]
      rw [hb, hv, applyVolume_one]
      simp only [List.nil_append]
      exact trimBuffer_of_le xs (by omega)
    unfold callback
    rw [hbuf, if_pos (by omega)]
    exact ⟨rfl, rfl⟩

/-- Witness for C7 at `frames = 2` and written samples `[1, 2, 3, 4]`. -/
theorem C7_fifo_round_trip_witness :
    (callback (write (fun _ => 0) ⟨[], 0, 1, true⟩ [1, 2, 3, 4]) 2).1 =
        [1, 2] ∧
    (callback (write (fun _ => 0) ⟨[], 0, 1, true⟩ [1, 2, 3, 4]) 2).2.buffer =
        [3, 4] := by
  have h := C7_fifo_round_trip (fun _ => 0) ⟨[], 0, 1, true⟩ [1, 2, 3, 4] 2
    rfl rfl rfl (by decide) (by decide)
  exact ⟨by simpa using h.1, by simpa using h.2⟩

/-- C9: volume handling.  `set_volume` stores exactly the clamp of its
argument to `[0, 2]`; a write at volume 0 buffers all-zero samples whatever
the input was; at volume 2 a sample above half-scale is clipped to 32767
(the top of the signed 16-bit range) instead of wrapping. -/
theorem C9_volume_handling :
    (∀ (st : AudioState) (v : ℚ),
        (set_volume st v).volume = max 0 (min 2 v) ∧
        0 ≤ (set_volume st v).volume ∧ (set_volume st v).volume ≤ 2) ∧
    (∀ (lvl : List Int → ℚ) (st : AudioState) (samples : List Int),
        st.running = true → st.volume = 0 → samples ≠ [] →
        (write lvl st samples).buffer =
          trimBuffer (st.buffer ++ List.replicate samples.length 0)) ∧
    (∀ s : Int, 16383 < s → scaleSample 2 s = 32767) := by
  refine ⟨?_, ?_, ?_⟩
  · intro st v
    refine ⟨rfl, le_max_left 0 _, max_le (by norm_num) (min_le_left 2 v)⟩
  · intro lvl st samples hr hv hs
    rw [write_buffer lvl st samples hr hs, hv, applyVolume_zero]
  · intro s hs
    unfold scaleSample clip16 qtrunc
    have h2 : (32767 : ℚ) ≤ 2 * (s : ℚ) := by
      have : (16384 : ℚ) ≤ (s : ℚ) := by exact_mod_cast hs
      linarith
    rw [max_eq_right (by linarith), min_eq_left h2, if_pos (by linarith)]
    norm_num

/-- Witness for C9: clamping 5 to 2; a volume-0 write of two samples
buffering zeros; a half-scale-plus sample 20000 clipping to 32767. -/
theorem C9_volume_handling_witness :
    (set_volume ⟨[], 0, 1, true⟩ 5).volume = 2 ∧
    (write (fun _ => 0) ⟨[], 0, 0, true⟩ [30000, -5]).buffer = [0, 0] ∧
    scaleSample 2 20000 = 32767 := by
  refine ⟨?_, ?_, ?_⟩
  · rw [(C9_volume_handling.1 ⟨[], 0, 1, true⟩ 5).1]
    decide
  · rw [C9_volume_handling.2.1 (fun _ => 0) ⟨[], 0, 0, true⟩ [30000, -5]
      rfl rfl (by decide)]
    decide
  · exact C9_volume_handling.2.2 20000 (by decide)

end MeoMic
